import Mathlib

/-!
Verification development for the playlist application's audio-preview
playback subsystem.

The subsystem consists of:
* the playback coordinator (`AudioContext.js`): a single mutable slot
  `currentlyPlaying` holding `{ element, id } | null`, mutated only through
  `register` and `unregister`;
* the track row (`Track.js`): per-row React state `isPlaying`, an audio
  element, the `togglePlay` click handler, the `handleAudioEnd` /
  `handleAudioError` audio-element callbacks, and a `useEffect` unmount
  cleanup;
* the catalog client (`spotifyAuth.js` / `Spotify.js`): the `search`
  response mapping and `formatDuration`.

Rows are identified by the index of their audio element; track identifiers
are opaque values compared by equality (modelled as `Nat`).  JS mutation is
modelled by explicit state passing, and the primitive side effects a
handler performs (element play/pause, coordinator calls) are returned as an
ordered list of `Act`s, in source order.
-/

/-- Opaque track identifier (the source compares ids with `===`/`!==` only). -/
abbrev TrackId := Nat

/-- Coordinator slot content: `{ element: audioElement, id }`.
The audio element is identified by its row index. -/
structure Slot where
  element : Nat
  id : TrackId
deriving DecidableEq

/-- Primitive observable side effects, recorded in the order the source
performs them: `element.play()`, `element.pause()`, the call to the
coordinator's `register` (acquire), and the call to `unregister` (release). -/
inductive Act where
  | play (e : Nat)
  | pause (e : Nat)
  | acquire (e : Nat) (id : TrackId)
  | release (id : TrackId)
deriving DecidableEq

/-- JS truthiness of an optional string (`previewUrl &&`, `!previewUrl`):
`null`/`undefined` and the empty string are falsy. -/
def truthy : Option String → Bool
  | none => false
  | some s => !(s == "")

/-- Coordinator `register` from `AudioContext.js`:
if a different track is currently registered its element is paused, then the
slot is overwritten with the new pair.  The returned action list holds the
pauses the call performs. -/
def register (slot : Option Slot) (e : Nat) (id : TrackId) :
    Option Slot × List Act :=
  match slot with
  | some s =>
    if s.id ≠ id then (some ⟨e, id⟩, [Act.pause s.element])
    else (some ⟨e, id⟩, [])
  | none => (some ⟨e, id⟩, [])

/-- Coordinator `unregister` from `AudioContext.js`: clears the slot only
when the registered id equals the released id. -/
def unregister (slot : Option Slot) (id : TrackId) : Option Slot :=
  match slot with
  | some s => if s.id = id then none else some s
  | none => none

/-- Immutable per-row configuration: the row's track id and `previewUrl`
(the two track-record fields the playback subsystem reads). -/
structure RowCfg where
  id : TrackId
  previewUrl : Option String
deriving DecidableEq

/-- Mutable per-row state: the React `isPlaying` flag, the audio element's
actual playing state, and whether the row is still mounted. -/
structure RowSt where
  isPlaying : Bool
  elemPlaying : Bool
  alive : Bool
deriving DecidableEq

/-- Update the row state at index `r` (no-op when out of range). -/
def updSt (st : List RowSt) (r : Nat) (f : RowSt → RowSt) : List RowSt :=
  match st[r]? with
  | some rs => st.set r (f rs)
  | none => st

/-- Apply one recorded action to the row states: a `pause e` stops element
`e`; other actions do not change element state here. -/
def pauseOne (st : List RowSt) (a : Act) : List RowSt :=
  match a with
  | Act.pause e => updSt st e (fun x => { x with elemPlaying := false })
  | _ => st

/-- Apply the element pauses performed inside a coordinator call. -/
def applyActs (st : List RowSt) (acts : List Act) : List RowSt :=
  acts.foldl pauseOne st

/-- Audio-element `onEnded` callback `handleAudioEnd` from `Track.js`:
its body is exactly `setIsPlaying(false)`. -/
def handleAudioEnd (rs : RowSt) : RowSt := { rs with isPlaying := false }

/-- Audio-element `onError` callback `handleAudioError` from `Track.js`:
its body is exactly `setIsPlaying(false)` (plus an optional local visual
indication). -/
def handleAudioError (rs : RowSt) : RowSt := { rs with isPlaying := false }

/-- Events driving a row: the user toggle click, natural end of playback,
a playback error, and row destruction (unmount). -/
inductive Event where
  | toggle (r : Nat)
  | ended (r : Nat)
  | error (r : Nat)
  | unmount (r : Nat)
deriving DecidableEq

/-- The `togglePlay` click handler from `Track.js` (context-integrated
version): guard on `previewUrl` truthiness; when `isPlaying` do
`pause(); unregister(id); setIsPlaying(false)`; otherwise do
`play(); register(element, id); setIsPlaying(true)`, where `register`
internally pauses the previously registered element.  Events reach only
mounted rows, hence the `alive` guard. -/
def togglePlay (cfg : List RowCfg) (st : List RowSt) (slot : Option Slot)
    (r : Nat) : List RowSt × Option Slot × List Act :=
  match cfg[r]?, st[r]? with
  | some c, some rs =>
    if rs.alive = false then (st, slot, [])
    else if truthy c.previewUrl = false then (st, slot, [])
    else if rs.isPlaying then
      (updSt st r (fun x => { x with elemPlaying := false, isPlaying := false }),
       unregister slot c.id,
       [Act.pause r, Act.release c.id])
    else
      let p := register slot r c.id
      (updSt (applyActs (updSt st r (fun x => { x with elemPlaying := true })) p.2)
         r (fun x => { x with isPlaying := true }),
       p.1,
       Act.play r :: Act.acquire r c.id :: p.2)
  | _, _ => (st, slot, [])

/-- One event step of the whole subsystem.  `ended`/`error` model the
element stopping physically followed by the row's handler; `unmount` models
the `useEffect` cleanup `audioRef.current.pause(); unregister(track.id)`. -/
def step (cfg : List RowCfg) (st : List RowSt) (slot : Option Slot)
    (e : Event) : List RowSt × Option Slot × List Act :=
  match e with
  | Event.toggle r => togglePlay cfg st slot r
  | Event.ended r =>
    match st[r]? with
    | some rs =>
      if rs.alive then
        (updSt st r (fun x => handleAudioEnd { x with elemPlaying := false }),
         slot, [])
      else (st, slot, [])
    | none => (st, slot, [])
  | Event.error r =>
    match st[r]? with
    | some rs =>
      if rs.alive then
        (updSt st r (fun x => handleAudioError { x with elemPlaying := false }),
         slot, [])
      else (st, slot, [])
    | none => (st, slot, [])
  | Event.unmount r =>
    match cfg[r]?, st[r]? with
    | some c, some rs =>
      if rs.alive then
        (updSt st r (fun x => { x with elemPlaying := false, alive := false }),
         unregister slot c.id,
         [Act.pause r, Act.release c.id])
      else (st, slot, [])
    | _, _ => (st, slot, [])

/-- Initial row states: every row idle, element stopped, mounted. -/
def initSt (cfg : List RowCfg) : List RowSt :=
  cfg.map (fun _ => { isPlaying := false, elemPlaying := false, alive := true })

/-- Run a sequence of events from a given state. -/
def run (cfg : List RowCfg) (st : List RowSt) (slot : Option Slot)
    (es : List Event) : List RowSt × Option Slot :=
  es.foldl (fun p e => let q := step cfg p.1 p.2 e; (q.1, q.2.1)) (st, slot)

/-- Conditional rendering of the preview toggle in `Track.js`:
`{previewUrl && (<button ...>)}`. -/
def renderPreviewButton (previewUrl : Option String) : Bool :=
  truthy previewUrl

/-- The `formatDuration` helper from `spotifyAuth.js` (identical in
`Spotify.js`): minutes, seconds with a leading zero below ten. -/
def formatDuration (ms : Nat) : String :=
  let minutes := ms / 60000
  let seconds := ms % 60000 / 1000
  toString minutes ++ ":" ++ (if seconds < 10 then "0" else "") ++ toString seconds

/-- Shape of one item of the remote search response consumed by `search`
(`artist0` stands for `track.artists[0].name`, `albumName` for
`track.album.name`). -/
structure ApiTrack where
  id : String
  name : String
  artist0 : String
  albumName : String
  uri : String
  duration_ms : Nat
  preview_url : Option String
deriving DecidableEq

/-- The normalized track record produced by `search`.  `previewUrl` is
optional; reading a key the object literal never set yields `undefined`
(`none`). -/
structure TrackRecord where
  id : String
  name : String
  artist : String
  album : String
  uri : String
  duration : String
  previewUrl : Option String
deriving DecidableEq

/-- The per-item mapping inside `search` of `spotifyAuth.js` (lines
206-213; the mapping in `Spotify.js` is identical): the object literal sets
id, name, artist, album, uri and duration, and sets no `previewUrl` key, so
reading `previewUrl` on the result yields `undefined` (`none`). -/
def searchTrackMap (t : ApiTrack) : TrackRecord :=
  { id := t.id
    name := t.name
    artist := t.artist0
    album := t.albumName
    uri := t.uri
    duration := formatDuration t.duration_ms
    previewUrl := none }

/-- The full response mapping `data.tracks.items.map(...)` of `search`. -/
def searchItemsMap (ts : List ApiTrack) : List TrackRecord :=
  ts.map searchTrackMap

/-! ### Basic facts about the embedding -/

theorem register_fst (slot : Option Slot) (e : Nat) (id : TrackId) :
    (register slot e id).1 = some ⟨e, id⟩ := by
  cases slot with
  | none => rfl
  | some s => by_cases h : s.id = id <;> simp [register, h]

theorem updSt_self {st : List RowSt} {r : Nat} {rs : RowSt} (f : RowSt → RowSt)
    (h : st[r]? = some rs) : (updSt st r f)[r]? = some (f rs) := by
  have hl : r < st.length := (List.getElem?_eq_some_iff.mp h).1
  rw [updSt, h]
  exact List.getElem?_set_self (by simpa using hl)

theorem updSt_ne {st : List RowSt} {r : Nat} (f : RowSt → RowSt) (q : Nat)
    (h : r ≠ q) : (updSt st r f)[q]? = st[q]? := by
  rw [updSt]
  cases hr : st[r]? with
  | none => rfl
  | some rs => exact List.getElem?_set_ne h

theorem run_nil (cfg : List RowCfg) (st : List RowSt) (slot : Option Slot) :
    run cfg st slot [] = (st, slot) := rfl

theorem run_cons (cfg : List RowCfg) (st : List RowSt) (slot : Option Slot)
    (e : Event) (es : List Event) :
    run cfg st slot (e :: es)
      = run cfg (step cfg st slot e).1 (step cfg st slot e).2.1 es := rfl

/-! ### Invariants of the coordinator -/

/-- Slot consistency: whatever is registered names an existing row, under
that row's own id, and that row has a (truthy) preview URL. -/
def SlotOk (cfg : List RowCfg) (slot : Option Slot) : Prop :=
  ∀ sl : Slot, slot = some sl →
    ∃ c : RowCfg, cfg[sl.element]? = some c ∧ c.id = sl.id ∧
      truthy c.previewUrl = true

/-- Every audio element that is actually playing is the element currently
registered with the coordinator (under the row's id). -/
def PlayOwn (cfg : List RowCfg) (st : List RowSt) (slot : Option Slot) : Prop :=
  ∀ (r : Nat) (rs : RowSt), st[r]? = some rs → rs.elemPlaying = true →
    ∃ c : RowCfg, cfg[r]? = some c ∧ slot = some ⟨r, c.id⟩

theorem id_inj {cfg : List RowCfg} (h : (cfg.map RowCfg.id).Nodup)
    {i j : Nat} {ci cj : RowCfg} (hi : cfg[i]? = some ci)
    (hj : cfg[j]? = some cj) (hij : ci.id = cj.id) : i = j := by
  have hmi : (cfg.map RowCfg.id)[i]? = some ci.id := by
    rw [List.getElem?_map, hi]; rfl
  have hmj : (cfg.map RowCfg.id)[j]? = some cj.id := by
    rw [List.getElem?_map, hj]; rfl
  have hlen : i < (cfg.map RowCfg.id).length :=
    (List.getElem?_eq_some_iff.mp hmi).1
  exact List.getElem?_inj hlen h (by rw [hmi, hmj, hij])

theorem unregister_SlotOk {cfg : List RowCfg} {slot : Option Slot}
    {id : TrackId} (hS : SlotOk cfg slot) : SlotOk cfg (unregister slot id) := by
  intro sl hsl
  apply hS
  cases slot with
  | none => simp [unregister] at hsl
  | some s =>
    rw [unregister] at hsl
    split at hsl
    · exact absurd hsl (by simp)
    · exact hsl

theorem togglePlay_noRow {cfg : List RowCfg} {st : List RowSt}
    {slot : Option Slot} {r : Nat} (hc : cfg[r]? = none) :
    togglePlay cfg st slot r = (st, slot, []) := by
  simp [togglePlay, hc]

theorem togglePlay_noSt {cfg : List RowCfg} {st : List RowSt}
    {slot : Option Slot} {r : Nat} {c : RowCfg} (hc : cfg[r]? = some c)
    (hs : st[r]? = none) : togglePlay cfg st slot r = (st, slot, []) := by
  simp [togglePlay, hc, hs]

theorem togglePlay_dead {cfg : List RowCfg} {st : List RowSt}
    {slot : Option Slot} {r : Nat} {c : RowCfg} {rs : RowSt}
    (hc : cfg[r]? = some c) (hs : st[r]? = some rs) (h1 : rs.alive = false) :
    togglePlay cfg st slot r = (st, slot, []) := by
  simp [togglePlay, hc, hs, h1]

theorem togglePlay_noPrev {cfg : List RowCfg} {st : List RowSt}
    {slot : Option Slot} {r : Nat} {c : RowCfg} {rs : RowSt}
    (hc : cfg[r]? = some c) (hs : st[r]? = some rs)
    (h2 : truthy c.previewUrl = false) :
    togglePlay cfg st slot r = (st, slot, []) := by
  by_cases h1 : rs.alive = false
  · simp [togglePlay, hc, hs, h1]
  · simp [togglePlay, hc, hs, h1, h2]

theorem togglePlay_pauseBranch {cfg : List RowCfg} {st : List RowSt}
    {slot : Option Slot} {r : Nat} {c : RowCfg} {rs : RowSt}
    (hc : cfg[r]? = some c) (hs : st[r]? = some rs) (h1 : rs.alive = true)
    (h2 : truthy c.previewUrl = true) (h3 : rs.isPlaying = true) :
    togglePlay cfg st slot r =
      (updSt st r (fun x => { x with elemPlaying := false, isPlaying := false }),
       unregister slot c.id, [Act.pause r, Act.release c.id]) := by
  simp [togglePlay, hc, hs, h1, h2, h3]

theorem togglePlay_playBranch {cfg : List RowCfg} {st : List RowSt}
    {slot : Option Slot} {r : Nat} {c : RowCfg} {rs : RowSt}
    (hc : cfg[r]? = some c) (hs : st[r]? = some rs) (h1 : rs.alive = true)
    (h2 : truthy c.previewUrl = true) (h3 : rs.isPlaying = false) :
    togglePlay cfg st slot r =
      (updSt (applyActs (updSt st r (fun x => { x with elemPlaying := true }))
          (register slot r c.id).2) r (fun x => { x with isPlaying := true }),
       (register slot r c.id).1,
       Act.play r :: Act.acquire r c.id :: (register slot r c.id).2) := by
  simp [togglePlay, hc, hs, h1, h2, h3]

theorem step_toggle_eq (cfg : List RowCfg) (st : List RowSt)
    (slot : Option Slot) (r : Nat) :
    step cfg st slot (Event.toggle r) = togglePlay cfg st slot r := rfl

theorem step_ended_eq {cfg : List RowCfg} {st : List RowSt}
    {slot : Option Slot} {r : Nat} {rs : RowSt} (hs : st[r]? = some rs)
    (h1 : rs.alive = true) :
    step cfg st slot (Event.ended r)
      = (updSt st r (fun x => handleAudioEnd { x with elemPlaying := false }),
         slot, []) := by
  simp [step, hs, h1]

theorem step_ended_frozen {cfg : List RowCfg} {st : List RowSt}
    {slot : Option Slot} {r : Nat}
    (h : st[r]? = none ∨ ∃ rs, st[r]? = some rs ∧ rs.alive = false) :
    step cfg st slot (Event.ended r) = (st, slot, []) := by
  rcases h with h | ⟨rs, hs, h1⟩
  · simp [step, h]
  · simp [step, hs, h1]

theorem step_error_eq {cfg : List RowCfg} {st : List RowSt}
    {slot : Option Slot} {r : Nat} {rs : RowSt} (hs : st[r]? = some rs)
    (h1 : rs.alive = true) :
    step cfg st slot (Event.error r)
      = (updSt st r (fun x => handleAudioError { x with elemPlaying := false }),
         slot, []) := by
  simp [step, hs, h1]

theorem step_error_frozen {cfg : List RowCfg} {st : List RowSt}
    {slot : Option Slot} {r : Nat}
    (h : st[r]? = none ∨ ∃ rs, st[r]? = some rs ∧ rs.alive = false) :
    step cfg st slot (Event.error r) = (st, slot, []) := by
  rcases h with h | ⟨rs, hs, h1⟩
  · simp [step, h]
  · simp [step, hs, h1]

theorem step_unmount_eq {cfg : List RowCfg} {st : List RowSt}
    {slot : Option Slot} {r : Nat} {c : RowCfg} {rs : RowSt}
    (hc : cfg[r]? = some c) (hs : st[r]? = some rs) (h1 : rs.alive = true) :
    step cfg st slot (Event.unmount r)
      = (updSt st r (fun x => { x with elemPlaying := false, alive := false }),
         unregister slot c.id, [Act.pause r, Act.release c.id]) := by
  simp [step, hc, hs, h1]

theorem step_unmount_frozen {cfg : List RowCfg} {st : List RowSt}
    {slot : Option Slot} {r : Nat}
    (h : cfg[r]? = none ∨ st[r]? = none ∨
      ∃ rs, st[r]? = some rs ∧ rs.alive = false) :
    step cfg st slot (Event.unmount r) = (st, slot, []) := by
  rcases h with h | h | ⟨rs, hs, h1⟩
  · simp [step, h]
  · cases hc : cfg[r]? <;> simp [step, hc, h]
  · cases hc : cfg[r]? <;> simp [step, hc, hs, h1]

theorem step_slot_cases (cfg : List RowCfg) (st : List RowSt)
    (slot : Option Slot) (e : Event) :
    (step cfg st slot e).2.1 = slot ∨
    (∃ id : TrackId, (step cfg st slot e).2.1 = unregister slot id) ∨
    (∃ (c : RowCfg) (r : Nat), cfg[r]? = some c ∧ truthy c.previewUrl = true ∧
        (step cfg st slot e).2.1 = (register slot r c.id).1) := by
  cases e with
  | toggle r =>
    rw [step_toggle_eq]
    cases hc : cfg[r]? with
    | none => rw [togglePlay_noRow hc]; exact Or.inl rfl
    | some c =>
      cases hs : st[r]? with
      | none => rw [togglePlay_noSt hc hs]; exact Or.inl rfl
      | some rs =>
        cases h1 : rs.alive with
        | false => rw [togglePlay_dead hc hs h1]; exact Or.inl rfl
        | true =>
          cases h2 : truthy c.previewUrl with
          | false => rw [togglePlay_noPrev hc hs h2]; exact Or.inl rfl
          | true =>
            cases h3 : rs.isPlaying with
            | true =>
              rw [togglePlay_pauseBranch hc hs h1 h2 h3]
              exact Or.inr (Or.inl ⟨c.id, rfl⟩)
            | false =>
              rw [togglePlay_playBranch hc hs h1 h2 h3]
              exact Or.inr (Or.inr ⟨c, r, hc, h2, rfl⟩)
  | ended r =>
    cases hs : st[r]? with
    | none => rw [step_ended_frozen (Or.inl hs)]; exact Or.inl rfl
    | some rs =>
      cases h1 : rs.alive with
      | false => rw [step_ended_frozen (Or.inr ⟨rs, hs, h1⟩)]; exact Or.inl rfl
      | true => rw [step_ended_eq hs h1]; exact Or.inl rfl
  | error r =>
    cases hs : st[r]? with
    | none => rw [step_error_frozen (Or.inl hs)]; exact Or.inl rfl
    | some rs =>
      cases h1 : rs.alive with
      | false => rw [step_error_frozen (Or.inr ⟨rs, hs, h1⟩)]; exact Or.inl rfl
      | true => rw [step_error_eq hs h1]; exact Or.inl rfl
  | unmount r =>
    cases hc : cfg[r]? with
    | none => rw [step_unmount_frozen (Or.inl hc)]; exact Or.inl rfl
    | some c =>
      cases hs : st[r]? with
      | none => rw [step_unmount_frozen (Or.inr (Or.inl hs))]; exact Or.inl rfl
      | some rs =>
        cases h1 : rs.alive with
        | false =>
          rw [step_unmount_frozen (Or.inr (Or.inr ⟨rs, hs, h1⟩))]
          exact Or.inl rfl
        | true =>
          rw [step_unmount_eq hc hs h1]
          exact Or.inr (Or.inl ⟨c.id, rfl⟩)

theorem step_SlotOk (cfg : List RowCfg) (st : List RowSt) (slot : Option Slot)
    (e : Event) (hS : SlotOk cfg slot) : SlotOk cfg (step cfg st slot e).2.1 := by
  rcases step_slot_cases cfg st slot e with h | ⟨id, h⟩ | ⟨c, r, hc, htp, h⟩
  · rw [h]; exact hS
  · rw [h]; exact unregister_SlotOk hS
  · rw [h, register_fst]
    intro sl hsl
    cases hsl
    exact ⟨c, hc, rfl, htp⟩

theorem register_snd_none (e : Nat) (id : TrackId) :
    (register none e id).2 = [] := rfl

theorem register_snd_same {s : Slot} (e : Nat) {id : TrackId} (h : s.id = id) :
    (register (some s) e id).2 = [] := by
  simp [register, h]

theorem register_snd_diff {s : Slot} (e : Nat) {id : TrackId} (h : s.id ≠ id) :
    (register (some s) e id).2 = [Act.pause s.element] := by
  simp [register, h]

theorem unregister_some_same {s : Slot} {id : TrackId} (h : s.id = id) :
    unregister (some s) id = none := by
  simp [unregister, h]

theorem unregister_some_ne {s : Slot} {id : TrackId} (h : s.id ≠ id) :
    unregister (some s) id = some s := by
  simp [unregister, h]

theorem applyActs_nil (st : List RowSt) : applyActs st [] = st := rfl

theorem applyActs_pause (st : List RowSt) (e : Nat) :
    applyActs st [Act.pause e]
      = updSt st e (fun x => { x with elemPlaying := false }) := rfl

theorem updSt_none {st : List RowSt} {r : Nat} (f : RowSt → RowSt)
    (h : st[r]? = none) : updSt st r f = st := by
  rw [updSt, h]

theorem step_PlayOwn (cfg : List RowCfg) (st : List RowSt) (slot : Option Slot)
    (e : Event) (hnd : (cfg.map RowCfg.id).Nodup) (hS : SlotOk cfg slot)
    (hP : PlayOwn cfg st slot) :
    PlayOwn cfg (step cfg st slot e).1 (step cfg st slot e).2.1 := by
  cases e with
  | toggle r =>
    rw [step_toggle_eq]
    cases hc : cfg[r]? with
    | none => rw [togglePlay_noRow hc]; exact hP
    | some c =>
      cases hs : st[r]? with
      | none => rw [togglePlay_noSt hc hs]; exact hP
      | some rs =>
        cases h1 : rs.alive with
        | false => rw [togglePlay_dead hc hs h1]; exact hP
        | true =>
          cases h2 : truthy c.previewUrl with
          | false => rw [togglePlay_noPrev hc hs h2]; exact hP
          | true =>
            cases h3 : rs.isPlaying with
            | true =>
              rw [togglePlay_pauseBranch hc hs h1 h2 h3]
              intro q rq hq hplay
              by_cases hqr : q = r
              · subst hqr
                rw [updSt_self _ hs] at hq
                cases hq
                simp at hplay
              · rw [updSt_ne _ q (Ne.symm hqr)] at hq
                obtain ⟨cq, hcq, hslot⟩ := hP q rq hq hplay
                refine ⟨cq, hcq, ?_⟩
                rw [hslot]
                apply unregister_some_ne
                intro hid
                exact hqr (id_inj hnd hcq hc hid)
            | false =>
              rw [togglePlay_playBranch hc hs h1 h2 h3]
              cases hsl : slot with
              | none =>
                subst hsl
                rw [register_snd_none, applyActs_nil, register_fst]
                intro q rq hq hplay
                by_cases hqr : q = r
                · subst hqr
                  exact ⟨c, hc, rfl⟩
                · rw [updSt_ne _ q (Ne.symm hqr),
                    updSt_ne _ q (Ne.symm hqr)] at hq
                  obtain ⟨cq, hcq, hslot⟩ := hP q rq hq hplay
                  exact absurd hslot (by simp)
              | some s₀ =>
                subst hsl
                by_cases hid : s₀.id = c.id
                · rw [register_snd_same _ hid, applyActs_nil, register_fst]
                  intro q rq hq hplay
                  by_cases hqr : q = r
                  · subst hqr
                    exact ⟨c, hc, rfl⟩
                  · rw [updSt_ne _ q (Ne.symm hqr),
                      updSt_ne _ q (Ne.symm hqr)] at hq
                    obtain ⟨cq, hcq, hslot⟩ := hP q rq hq hplay
                    have hs₀ : s₀ = ⟨q, cq.id⟩ := Option.some.inj hslot
                    have hcc : cq.id = c.id := by rw [hs₀] at hid; exact hid
                    exact absurd (id_inj hnd hcq hc hcc) hqr
                · rw [register_snd_diff _ hid, applyActs_pause, register_fst]
                  obtain ⟨c₀, hc₀, hcid₀, _⟩ := hS s₀ rfl
                  have hel : s₀.element ≠ r := by
                    intro h
                    rw [h, hc] at hc₀
                    have hcc : c₀ = c := (Option.some.inj hc₀).symm
                    exact hid (by rw [← hcid₀, hcc])
                  intro q rq hq hplay
                  by_cases hqr : q = r
                  · subst hqr
                    exact ⟨c, hc, rfl⟩
                  · rw [updSt_ne _ q (Ne.symm hqr)] at hq
                    by_cases hqe : q = s₀.element
                    · rw [hqe] at hq
                      cases hmid :
                          (updSt st r (fun x => { x with elemPlaying := true }))[s₀.element]? with
                      | none =>
                        rw [updSt_none _ hmid, hmid] at hq
                        exact absurd hq (by simp)
                      | some y =>
                        rw [updSt_self _ hmid] at hq
                        cases hq
                        simp at hplay
                    · rw [updSt_ne _ q (Ne.symm hqe),
                        updSt_ne _ q (Ne.symm hqr)] at hq
                      obtain ⟨cq, hcq, hslot⟩ := hP q rq hq hplay
                      have hs₀ : s₀ = ⟨q, cq.id⟩ := Option.some.inj hslot
                      exact absurd (by rw [hs₀]) hqe
  | ended r =>
    cases hs : st[r]? with
    | none => rw [step_ended_frozen (Or.inl hs)]; exact hP
    | some rs =>
      cases h1 : rs.alive with
      | false => rw [step_ended_frozen (Or.inr ⟨rs, hs, h1⟩)]; exact hP
      | true =>
        rw [step_ended_eq hs h1]
        intro q rq hq hplay
        by_cases hqr : q = r
        · subst hqr
          rw [updSt_self _ hs] at hq
          cases hq
          simp [handleAudioEnd] at hplay
        · rw [updSt_ne _ q (Ne.symm hqr)] at hq
          exact hP q rq hq hplay
  | error r =>
    cases hs : st[r]? with
    | none => rw [step_error_frozen (Or.inl hs)]; exact hP
    | some rs =>
      cases h1 : rs.alive with
      | false => rw [step_error_frozen (Or.inr ⟨rs, hs, h1⟩)]; exact hP
      | true =>
        rw [step_error_eq hs h1]
        intro q rq hq hplay
        by_cases hqr : q = r
        · subst hqr
          rw [updSt_self _ hs] at hq
          cases hq
          simp [handleAudioError] at hplay
        · rw [updSt_ne _ q (Ne.symm hqr)] at hq
          exact hP q rq hq hplay
  | unmount r =>
    cases hc : cfg[r]? with
    | none => rw [step_unmount_frozen (Or.inl hc)]; exact hP
    | some c =>
      cases hs : st[r]? with
      | none => rw [step_unmount_frozen (Or.inr (Or.inl hs))]; exact hP
      | some rs =>
        cases h1 : rs.alive with
        | false =>
          rw [step_unmount_frozen (Or.inr (Or.inr ⟨rs, hs, h1⟩))]
          exact hP
        | true =>
          rw [step_unmount_eq hc hs h1]
          intro q rq hq hplay
          by_cases hqr : q = r
          · subst hqr
            rw [updSt_self _ hs] at hq
            cases hq
            simp at hplay
          · rw [updSt_ne _ q (Ne.symm hqr)] at hq
            obtain ⟨cq, hcq, hslot⟩ := hP q rq hq hplay
            refine ⟨cq, hcq, ?_⟩
            rw [hslot]
            apply unregister_some_ne
            intro hid
            exact hqr (id_inj hnd hcq hc hid)

theorem run_SlotOk (cfg : List RowCfg) (st : List RowSt) (slot : Option Slot)
    (es : List Event) (hS : SlotOk cfg slot) :
    SlotOk cfg (run cfg st slot es).2 := by
  induction es generalizing st slot with
  | nil => exact hS
  | cons e es ih =>
    rw [run_cons]
    exact ih _ _ (step_SlotOk cfg st slot e hS)

theorem run_PlayOwn (cfg : List RowCfg) (st : List RowSt) (slot : Option Slot)
    (es : List Event) (hnd : (cfg.map RowCfg.id).Nodup) (hS : SlotOk cfg slot)
    (hP : PlayOwn cfg st slot) :
    PlayOwn cfg (run cfg st slot es).1 (run cfg st slot es).2 := by
  induction es generalizing st slot with
  | nil => exact hP
  | cons e es ih =>
    rw [run_cons]
    exact ih _ _ (step_SlotOk cfg st slot e hS)
      (step_PlayOwn cfg st slot e hnd hS hP)

theorem SlotOk_init (cfg : List RowCfg) : SlotOk cfg none := by
  intro sl h
  cases h

theorem PlayOwn_init (cfg : List RowCfg) : PlayOwn cfg (initSt cfg) none := by
  intro r rs h hplay
  rw [initSt, List.getElem?_map] at h
  cases hc : cfg[r]? with
  | none => rw [hc] at h; cases h
  | some c =>
    rw [hc] at h
    cases h
    cases hplay

theorem reachable_atMostOne (cfg : List RowCfg) (es : List Event)
    (hnd : (cfg.map RowCfg.id).Nodup) {i j : Nat} {ri rj : RowSt}
    (hi : (run cfg (initSt cfg) none es).1[i]? = some ri)
    (hj : (run cfg (initSt cfg) none es).1[j]? = some rj)
    (hpi : ri.elemPlaying = true) (hpj : rj.elemPlaying = true) : i = j := by
  have hP := run_PlayOwn cfg (initSt cfg) none es hnd (SlotOk_init cfg)
    (PlayOwn_init cfg)
  obtain ⟨ci, hci, hsi⟩ := hP i ri hi hpi
  obtain ⟨cj, hcj, hsj⟩ := hP j rj hj hpj
  have h2 : (⟨i, ci.id⟩ : Slot) = ⟨j, cj.id⟩ :=
    Option.some.inj (hsi.symm.trans hsj)
  exact congrArg Slot.element h2

/-! ### Claims -/

/-- C3: `unregister` (release) clears the registration iff the currently
registered identifier equals the released one; a release issued after a
different track's acquire leaves that registration intact; and a release
with no current registration is a no-op (the function is total, so no
error is ever raised). -/
theorem claim_C3_guarded_release :
    (∀ (s : Slot) (id : TrackId),
        unregister (some s) id = if s.id = id then none else some s) ∧
    (∀ id : TrackId, unregister none id = none) ∧
    (∀ (slot : Option Slot) (e : Nat) (a b : TrackId), a ≠ b →
        unregister (register slot e b).1 a = some ⟨e, b⟩) := by
  refine ⟨fun s id => rfl, fun id => rfl, ?_⟩
  intro slot e a b hab
  rw [register_fst]
  exact unregister_some_ne (Ne.symm hab)

/-- Witness for C3 at concrete inputs. -/
theorem claim_C3_guarded_release_witness :
    unregister (some (⟨0, 5⟩ : Slot)) 5 = none ∧
    unregister none 5 = none ∧
    unregister (register none 1 2).1 3 = some ⟨1, 2⟩ := by
  refine ⟨?_, claim_C3_guarded_release.2.1 5,
    claim_C3_guarded_release.2.2 none 1 3 2 (by decide)⟩
  rw [claim_C3_guarded_release.1 ⟨0, 5⟩ 5]
  simp

/-- C7: acquiring the already-registered identifier again is idempotent:
`register` performs no pause (empty action list), so no stop-then-restart
of the handle is ever observed for a self re-acquire. -/
theorem claim_C7_idempotent_self_acquire (s : Slot) (e : Nat) (id : TrackId)
    (h : s.id = id) :
    register (some s) e id = (some ⟨e, id⟩, ([] : List Act)) := by
  simp [register, h]

/-- Witness for C7 at a concrete slot. -/
theorem claim_C7_idempotent_self_acquire_witness :
    register (some (⟨0, 7⟩ : Slot)) 0 7 = (some ⟨0, 7⟩, ([] : List Act)) :=
  claim_C7_idempotent_self_acquire ⟨0, 7⟩ 0 7 rfl

/-- C10: `formatDuration ms` renders floor(ms / 60000) minutes and
floor((ms mod 60000) / 1000) seconds, the seconds with a leading zero when
below ten, and the seconds component always lies in [0, 59]. -/
theorem claim_C10_formatDuration (ms : Nat) :
    formatDuration ms
      = toString (ms / 60000) ++ ":"
          ++ (if ms % 60000 / 1000 < 10 then "0" else "")
          ++ toString (ms % 60000 / 1000) ∧
    ms % 60000 / 1000 ≤ 59 := by
  refine ⟨rfl, ?_⟩
  have h : ms % 60000 < 60000 := Nat.mod_lt _ (by decide)
  omega

/-- C6 (code defect): the search mapping drops the preview field.  At a
catalog item that does have an available preview, the normalized record's
`previewUrl` reads as `undefined` (`none`), although the repository's own
design document instructs capturing `track.preview_url` in this mapping and
the README advertises preview playback. -/
theorem claim_C6_search_drops_preview :
    ({ id := "t1", name := "song", artist0 := "artist", albumName := "album",
       uri := "spotify:track:t1", duration_ms := 215000,
       preview_url := some "https://p.scdn.co/mp3-preview/t1" } : ApiTrack).preview_url
        = some "https://p.scdn.co/mp3-preview/t1" ∧
    (searchTrackMap
      { id := "t1", name := "song", artist0 := "artist", albumName := "album",
        uri := "spotify:track:t1", duration_ms := 215000,
        preview_url := some "https://p.scdn.co/mp3-preview/t1" }).previewUrl
      = none :=
  ⟨rfl, rfl⟩

/-- C1 counterexample: one row with a preview; the user starts playback and
the audio then ends naturally.  The row reports Idle afterwards, but the
coordinator's registration is NOT empty: it still holds the finished
track, because `handleAudioEnd` only resets the local flag and never calls
`unregister`. -/
theorem claim_C1_counterexample :
    (run [⟨1, some "u"⟩] (initSt [⟨1, some "u"⟩]) none
        [Event.toggle 0, Event.ended 0]).2 = some ⟨0, 1⟩ ∧
    (run [⟨1, some "u"⟩] (initSt [⟨1, some "u"⟩]) none
        [Event.toggle 0, Event.ended 0]).1
      = [{ isPlaying := false, elemPlaying := false, alive := true }] :=
  ⟨rfl, rfl⟩

/-- C1 (amended): when a live row's audio signals natural completion or a
playback error, the row's local flag returns to Idle and nothing is
propagated to callers (the handler emits no further effect), but the
coordinator's registration is NOT released: the slot is left exactly as it
was, until a later acquire, explicit pause, or unmount clears it. -/
theorem claim_C1_amended (cfg : List RowCfg) (st : List RowSt)
    (slot : Option Slot) (r : Nat) (rs : RowSt) (e : Event)
    (hs : st[r]? = some rs) (ha : rs.alive = true)
    (he : e = Event.ended r ∨ e = Event.error r) :
    (step cfg st slot e).2.1 = slot ∧
    (step cfg st slot e).1[r]?
      = some { rs with elemPlaying := false, isPlaying := false } ∧
    (step cfg st slot e).2.2 = [] := by
  rcases he with he | he <;> subst he
  · rw [step_ended_eq hs ha]
    exact ⟨rfl, updSt_self _ hs, rfl⟩
  · rw [step_error_eq hs ha]
    exact ⟨rfl, updSt_self _ hs, rfl⟩

/-- Witness for C1 (amended) on a concrete active row. -/
theorem claim_C1_amended_witness :
    (step [⟨1, some "u"⟩]
        [{ isPlaying := true, elemPlaying := true, alive := true }]
        (some ⟨0, 1⟩) (Event.ended 0)).2.1 = some ⟨0, 1⟩ ∧
    (step [⟨1, some "u"⟩]
        [{ isPlaying := true, elemPlaying := true, alive := true }]
        (some ⟨0, 1⟩) (Event.ended 0)).1[0]?
      = some { isPlaying := false, elemPlaying := false, alive := true } ∧
    (step [⟨1, some "u"⟩]
        [{ isPlaying := true, elemPlaying := true, alive := true }]
        (some ⟨0, 1⟩) (Event.ended 0)).2.2 = [] :=
  claim_C1_amended _ _ _ 0 ⟨true, true, true⟩ _ rfl rfl (Or.inl rfl)

/-- C2 counterexample: two rows bound to the SAME track identifier (the
same track present in both collections).  After toggling both, both audio
elements are playing at once: the second acquire compares identifiers
only, finds them equal, and does not pause the first element. -/
theorem claim_C2_counterexample :
    (run [⟨1, some "u"⟩, ⟨1, some "u"⟩]
        (initSt [⟨1, some "u"⟩, ⟨1, some "u"⟩]) none
        [Event.toggle 0, Event.toggle 1]).1
      = [{ isPlaying := true, elemPlaying := true, alive := true },
         { isPlaying := true, elemPlaying := true, alive := true }] := rfl

/-- C2 (amended): after every acquire exactly one registration is active
and, when the identifiers differ, the previously registered handle has
been paused; and provided all rows bind pairwise-distinct track
identifiers, at most one audio element is playing in any reachable state.
With duplicate identifiers two elements can play at once. -/
theorem claim_C2_amended :
    (∀ (slot : Option Slot) (e : Nat) (id : TrackId),
        (register slot e id).1 = some ⟨e, id⟩) ∧
    (∀ (s₀ : Slot) (e : Nat) (id : TrackId), s₀.id ≠ id →
        register (some s₀) e id = (some ⟨e, id⟩, [Act.pause s₀.element])) ∧
    (∀ (cfg : List RowCfg) (es : List Event), (cfg.map RowCfg.id).Nodup →
        ∀ (i j : Nat) (ri rj : RowSt),
          (run cfg (initSt cfg) none es).1[i]? = some ri →
          (run cfg (initSt cfg) none es).1[j]? = some rj →
          ri.elemPlaying = true → rj.elemPlaying = true → i = j) := by
  refine ⟨register_fst, ?_, ?_⟩
  · intro s₀ e id h
    simp [register, h]
  · intro cfg es hnd i j ri rj hi hj hpi hpj
    exact reachable_atMostOne cfg es hnd hi hj hpi hpj

/-- Witness for C2 (amended) at concrete inputs. -/
theorem claim_C2_amended_witness :
    (register (some (⟨0, 1⟩ : Slot)) 1 2).1 = some ⟨1, 2⟩ ∧
    register (some (⟨0, 1⟩ : Slot)) 1 2 = (some ⟨1, 2⟩, [Act.pause 0]) ∧
    (0 : Nat) = 0 :=
  ⟨claim_C2_amended.1 (some ⟨0, 1⟩) 1 2,
   claim_C2_amended.2.1 ⟨0, 1⟩ 1 2 (by decide),
   claim_C2_amended.2.2 [⟨1, some "u"⟩, ⟨2, some "v"⟩] [Event.toggle 0]
     (by decide) 0 0 ⟨true, true, true⟩ ⟨true, true, true⟩ rfl rfl rfl rfl⟩

/-- C4 (code defect): two distinct rows; row 0 plays, then row 1's toggle
makes the coordinator pause row 0's element externally.  Row 0's element is
paused, yet its local flag still reports Playing: the audio element has
only ended/error handlers and no pause handler, so the externally paused
row never resets its flag to Idle. -/
theorem claim_C4_flag_desync :
    (run [⟨1, some "u"⟩, ⟨2, some "v"⟩]
        (initSt [⟨1, some "u"⟩, ⟨2, some "v"⟩]) none
        [Event.toggle 0, Event.toggle 1]).1[0]?
      = some { isPlaying := true, elemPlaying := false, alive := true } := rfl

/-- C5 counterexample: on the Idle -> Playing toggle of a fresh row the
emitted effect order is: start the row's own audio resource first, call
the coordinator acquire second — the reverse of the claimed order, as the
index comparison in the emitted trace shows. -/
theorem claim_C5_counterexample :
    (step [⟨1, some "u"⟩] (initSt [⟨1, some "u"⟩]) none (Event.toggle 0)).2.2
      = [Act.play 0, Act.acquire 0 1] ∧
    List.indexOf (Act.play 0) [Act.play 0, Act.acquire 0 1]
      < List.indexOf (Act.acquire 0 1) [Act.play 0, Act.acquire 0 1] :=
  ⟨rfl, by decide⟩

/-- C5 (amended): on the Idle -> Playing transition (preview present, row
alive) the side effects occur in the order: first the row's own audio
resource is started, then the coordinator acquire is called (which in turn
pauses any previously registered different handle). -/
theorem claim_C5_amended (cfg : List RowCfg) (st : List RowSt)
    (slot : Option Slot) (r : Nat) (c : RowCfg) (rs : RowSt)
    (hc : cfg[r]? = some c) (hs : st[r]? = some rs) (h1 : rs.alive = true)
    (h2 : truthy c.previewUrl = true) (h3 : rs.isPlaying = false) :
    (step cfg st slot (Event.toggle r)).2.2
      = Act.play r :: Act.acquire r c.id :: (register slot r c.id).2 := by
  rw [step_toggle_eq, togglePlay_playBranch hc hs h1 h2 h3]

/-- Witness for C5 (amended) on a concrete fresh row. -/
theorem claim_C5_amended_witness :
    (step [⟨1, some "u"⟩] (initSt [⟨1, some "u"⟩]) none (Event.toggle 0)).2.2
      = Act.play 0 :: Act.acquire 0 1 :: (register none 0 1).2 :=
  claim_C5_amended [⟨1, some "u"⟩] (initSt [⟨1, some "u"⟩]) none 0
    ⟨1, some "u"⟩ ⟨false, false, true⟩ rfl rfl rfl rfl rfl

/-- C8: a track record with an absent preview URL never renders the
playback toggle, its toggle handler is a complete no-op (no acquire, no
state change, no emitted effect), and no reachable registration ever names
such a row, so it never obtains a playback registration. -/
theorem claim_C8_no_preview_no_acquire :
    (renderPreviewButton none = false) ∧
    (∀ (cfg : List RowCfg) (st : List RowSt) (slot : Option Slot) (r : Nat)
        (c : RowCfg), cfg[r]? = some c → c.previewUrl = none →
        step cfg st slot (Event.toggle r) = (st, slot, [])) ∧
    (∀ (cfg : List RowCfg) (es : List Event) (r : Nat) (c : RowCfg),
        cfg[r]? = some c → c.previewUrl = none →
        ∀ sl : Slot, (run cfg (initSt cfg) none es).2 = some sl →
          sl.element ≠ r) := by
  refine ⟨rfl, ?_, ?_⟩
  · intro cfg st slot r c hc hp
    rw [step_toggle_eq]
    cases hs : st[r]? with
    | none => exact togglePlay_noSt hc hs
    | some rs => exact togglePlay_noPrev hc hs (by rw [hp]; rfl)
  · intro cfg es r c hc hp sl hsl hre
    obtain ⟨c', hc', _h, htp⟩ :=
      run_SlotOk cfg (initSt cfg) none es (SlotOk_init cfg) sl hsl
    rw [hre, hc] at hc'
    have hcc : c = c' := Option.some.inj hc'
    rw [← hcc, hp] at htp
    cases htp

/-- Witness for C8 on concrete rows (row 1 has no preview URL). -/
theorem claim_C8_no_preview_no_acquire_witness :
    renderPreviewButton none = false ∧
    step [⟨1, some "u"⟩, ⟨2, none⟩] (initSt [⟨1, some "u"⟩, ⟨2, none⟩]) none
        (Event.toggle 1)
      = (initSt [⟨1, some "u"⟩, ⟨2, none⟩], none, []) ∧
    (⟨0, 1⟩ : Slot).element ≠ 1 :=
  ⟨claim_C8_no_preview_no_acquire.1,
   claim_C8_no_preview_no_acquire.2.1 _ _ _ 1 ⟨2, none⟩ rfl rfl,
   claim_C8_no_preview_no_acquire.2.2 [⟨1, some "u"⟩, ⟨2, none⟩]
     [Event.toggle 0] 1 ⟨2, none⟩ rfl rfl ⟨0, 1⟩ rfl⟩

/-- C9 counterexample: two rows bound to the same track identifier; row 0
holds the registration (its element is the registered one), and destroying
row 1 — which does NOT hold it — nevertheless clears it, because the
cleanup's release is keyed by identifier, not by row identity. -/
theorem claim_C9_counterexample :
    (run [⟨1, some "u"⟩, ⟨1, some "u"⟩]
        (initSt [⟨1, some "u"⟩, ⟨1, some "u"⟩]) none
        [Event.toggle 0]).2 = some ⟨0, 1⟩ ∧
    (run [⟨1, some "u"⟩, ⟨1, some "u"⟩]
        (initSt [⟨1, some "u"⟩, ⟨1, some "u"⟩]) none
        [Event.toggle 0, Event.unmount 1]).2 = none :=
  ⟨rfl, rfl⟩

/-- C9 (amended): unmounting a live row pauses its own element and performs
a release keyed by its track identifier: when the registered identifier
equals the row's (in particular when the row itself holds the
registration), the slot is cleared; when it differs, the registration is
left untouched.  A non-holding row that shares the holder's identifier
therefore clears the holder's registration. -/
theorem claim_C9_amended (cfg : List RowCfg) (st : List RowSt)
    (slot : Option Slot) (r : Nat) (c : RowCfg) (rs : RowSt)
    (hc : cfg[r]? = some c) (hs : st[r]? = some rs) (h1 : rs.alive = true) :
    (step cfg st slot (Event.unmount r)).1[r]?
      = some { rs with elemPlaying := false, alive := false } ∧
    (step cfg st slot (Event.unmount r)).2.2
      = [Act.pause r, Act.release c.id] ∧
    (step cfg st slot (Event.unmount r)).2.1 = unregister slot c.id ∧
    (∀ sl : Slot, slot = some sl → sl.id = c.id →
        (step cfg st slot (Event.unmount r)).2.1 = none) ∧
    (∀ sl : Slot, slot = some sl → sl.id ≠ c.id →
        (step cfg st slot (Event.unmount r)).2.1 = slot) := by
  rw [step_unmount_eq hc hs h1]
  refine ⟨updSt_self _ hs, rfl, rfl, ?_, ?_⟩
  · intro sl hsl hid
    rw [hsl]
    exact unregister_some_same hid
  · intro sl hsl hid
    rw [hsl]
    exact unregister_some_ne hid

/-- Witness for C9 (amended): a holder's unmount clears the slot. -/
theorem claim_C9_amended_witness :
    (step [⟨1, some "u"⟩]
        [{ isPlaying := true, elemPlaying := true, alive := true }]
        (some ⟨0, 1⟩) (Event.unmount 0)).2.1 = none :=
  (claim_C9_amended [⟨1, some "u"⟩] [⟨true, true, true⟩] (some ⟨0, 1⟩) 0
      ⟨1, some "u"⟩ ⟨true, true, true⟩ rfl rfl rfl).2.2.2.1 ⟨0, 1⟩ rfl rfl
